import Mathlib

/-!
Shallow embedding of the status-list core of the `rustisvn` repository
(`src/svn.rs` and the layout arithmetic of `src/renders.rs`).

Modelling conventions:
* `PathBuf` / `&str` paths are modelled as `String` (valid UTF-8, so
  `Path::to_str` always succeeds); path order is the lexicographic string
  order, which agrees with `PathBuf::cmp` on separator-free components.
* `HashSet<usize>` is modelled as a `List Nat` holding the set's elements
  in its (unspecified) iteration order; set operations (`contains`,
  `remove`, `is_empty`) are order-insensitive, but `iter()` exposes the
  order, so the list keeps it explicit.
* The external `svn` binary is an opaque executor: either the raw output
  of one `status` call (`Except String String`), or for the mutating
  operations a function `List String → Except String String` from an
  argument vector to the command's result.  Operations that issue
  commands also return the list of argument vectors they invoked.
* Rust `u16` division by zero panics; the panic is modelled by `Option`.
-/

/-- `SvnStatusEntry` from `src/svn.rs`: one file path with its one-letter
status code. -/
structure SvnStatusEntry where
  file : String
  state : String
deriving DecidableEq, Repr

/-- `SvnStatusList` from `src/svn.rs`: ordered entries, the selection set
(`HashSet<usize>`, kept with its iteration order), and the commit-message
buffer. -/
structure SvnStatusList where
  entries : List SvnStatusEntry
  selections : List Nat
  commit_message : String
deriving DecidableEq, Repr

/-- Rust `char::is_whitespace`: the Unicode `White_Space` code points. -/
def rustIsWhitespace (c : Char) : Bool :=
  c == ' ' || c == '\t' || c == '\n' || c == '\u000B' || c == '\u000C' ||
  c == '\r' || c == '\u0085' || c == '\u00A0' || c == '\u1680' ||
  ('\u2000' ≤ c && c ≤ '\u200A') ||
  c == '\u2028' || c == '\u2029' || c == '\u202F' || c == '\u205F' ||
  c == '\u3000'

/-- The split predicate of the line parser in `svn_status`
(`c.is_whitespace() && c != LF && c != CR`). -/
def statusSep (c : Char) : Bool :=
  rustIsWhitespace c && c != '\n' && c != '\r'

/-- Rust `str::splitn(2, pat)` viewed as a char-list function: the part
before the first separator and the remainder after it, or `none` when no
separator occurs (in which case the iterator yields a single part and the
parser's second `next()` fails). -/
def splitn2 (p : Char → Bool) : List Char → Option (List Char × List Char)
  | [] => none
  | c :: cs =>
    if p c then some ([], cs)
    else (splitn2 p cs).map (fun q => (c :: q.1, q.2))

/-- Rust `str::trim` on a char list: strip Unicode whitespace from both
ends. -/
def rustTrim (l : List Char) : List Char :=
  ((l.dropWhile rustIsWhitespace).reverse.dropWhile rustIsWhitespace).reverse

/-- The per-line parser inside `SvnClient::svn_status`: split the line at
the first non-line-terminator whitespace into `state` and the remainder,
trim the remainder into the path; a line with no such separator yields no
entry. -/
def parse_status_line (line : List Char) : Option SvnStatusEntry :=
  match splitn2 statusSep line with
  | none => none
  | some q => some ⟨String.mk (rustTrim q.2), String.mk q.1⟩

/-- Split a char list at every `'\n'` (the pieces; always nonempty). -/
def splitOnNewline : List Char → List (List Char)
  | [] => [[]]
  | c :: cs =>
    match splitOnNewline cs with
    | [] => [[c]]
    | h :: t => if c = '\n' then [] :: h :: t else (c :: h) :: t

/-- Drop one trailing `'\r'`, used for pieces that were followed by a
`'\n'`. -/
def stripCR (l : List Char) : List Char :=
  if l.getLast? = some '\r' then l.dropLast else l

/-- Rust `str::lines`: split at `'\n'`, strip a `'\r'` preceding each
`'\n'`, and drop the final piece when the text ends with a newline. -/
def rustLines (s : List Char) : List (List Char) :=
  let parts := splitOnNewline s
  let body := (parts.dropLast).map stripCR
  match parts.getLast? with
  | none => body
  | some last => if last.isEmpty then body else body ++ [last]

/-- Lexicographic order on char lists, the order `PathBuf::cmp` induces on
the separator-free paths handled here. -/
def listCharLe : List Char → List Char → Bool
  | [], _ => true
  | _ :: _, [] => false
  | a :: as, b :: bs =>
    if a < b then true else if b < a then false else listCharLe as bs

/-- `a.file.cmp(&b.file)` as a boolean `≤` on paths. -/
def fileLe (a b : String) : Bool :=
  listCharLe a.data b.data

/-- Stable insertion of an entry into a file-sorted list, keeping it
before later equal files (so the fold below is Rust's stable
`sort_by(|a, b| a.file.cmp(&b.file))`). -/
def insertByFile (e : SvnStatusEntry) : List SvnStatusEntry → List SvnStatusEntry
  | [] => [e]
  | f :: fs =>
    if fileLe e.file f.file then e :: f :: fs else f :: insertByFile e fs

/-- `entries.sort_by(|a, b| a.file.cmp(&b.file))` from
`SvnClient::svn_status`. -/
def sortByFile : List SvnStatusEntry → List SvnStatusEntry
  | [] => []
  | e :: es => insertByFile e (sortByFile es)

/-- The parsing stage of `SvnClient::svn_status`: each output line is fed
to the line parser, unparseable lines are silently dropped; on command
failure the result is empty. -/
def parsed_entries (raw : Except String String) : List SvnStatusEntry :=
  match raw with
  | .ok out => (rustLines out.data).filterMap parse_status_line
  | .error _ => []

/-- `SvnClient::svn_status` as a function of the raw `status` output:
parse every line, then sort by file. -/
def svn_status (raw : Except String String) : List SvnStatusEntry :=
  sortByFile (parsed_entries raw)

/-- The file paths of the currently selected entries, produced by the
`selections.iter().filter_map(|&idx| entries.get(idx))` pattern shared by
`refresh_svn_status`, `push_basic_commit` and the Selected panel; the
`Path::to_str` step never fails in this model. -/
def selectedFiles (st : SvnStatusList) : List String :=
  st.selections.filterMap (fun i => (st.entries[i]?).map (fun e => e.file))

/-- The `for (new_idx, entry) in new_entries.iter().enumerate()` loop of
`refresh_svn_status`: collect the indices (counting from `k`) of entries
whose file is in `prev`. -/
def selectIndices (prev : List String) : List SvnStatusEntry → Nat → List Nat
  | [], _ => []
  | e :: es, k =>
    if e.file ∈ prev then k :: selectIndices prev es (k + 1)
    else selectIndices prev es (k + 1)

/-- `SvnClient::init_svn_status`: first population with empty selections
and (via `SvnStatusList::new`) an empty commit message. -/
def init_svn_status (raw : Except String String) : SvnStatusList :=
  ⟨svn_status raw, [], ""⟩

/-- `SvnClient::refresh_svn_status` as a function of the raw `status`
output: re-query, map old selected indices to files, re-select by file in
the new entries, and carry the commit message across the rebuild. -/
def refresh_svn_status (raw : Except String String) (st : SvnStatusList) :
    SvnStatusList :=
  let new_entries := svn_status raw
  ⟨new_entries, selectIndices (selectedFiles st) new_entries 0,
    st.commit_message⟩

/-- `SvnStatusList::toggle_selection_by_file`: take the `idx_selected`-th
entry of `selections.iter().filter_map(entries.get)` — i.e. the selected
entries in the set's iteration order — and remove the index of the first
entry with that file. -/
def toggle_selection_by_file (st : SvnStatusList) (idx_selected : Nat) :
    SvnStatusList :=
  match (st.selections.filterMap (fun i => st.entries[i]?))[idx_selected]? with
  | none => st
  | some entry =>
    match st.entries.findIdx? (fun e => e.file == entry.file) with
    | none => st
    | some idx => { st with selections := st.selections.erase idx }

/-- The empty-commit-message error string of `push_basic_commit`. -/
def emptyMessageError : String :=
  "El mensaje de commit no puede estar vacío."

/-- The no-files-selected error string of `push_basic_commit`. -/
def noFilesSelectedError : String :=
  "No se han seleccionado archivos para el commit."

/-- `SvnClient::push_basic_commit`, parameterised by the external command
executor: check the trimmed message, then the selection set; only when
both pass, invoke `commit -m <message> <selected files>` and then refresh
via a `status` call.  The result is the returned `Result`, the resulting
`SvnStatusList`, and the argument vectors of the commands invoked. -/
def push_basic_commit (exec : List String → Except String String)
    (st : SvnStatusList) :
    Except String Bool × SvnStatusList × List (List String) :=
  if rustTrim st.commit_message.data = [] then
    (.error emptyMessageError, st, [])
  else if st.selections.isEmpty then
    (.error noFilesSelectedError, st, [])
  else
    let args := "commit" :: "-m" :: st.commit_message :: selectedFiles st
    let command_result := exec args
    let st' := refresh_svn_status (exec ["status"]) st
    match command_result with
    | .ok _ => (.ok true, st', [args, ["status"]])
    | .error e => (.error ("Error en el commit: " ++ e), st', [args, ["status"]])

/-- `SvnClient::add_to_svn`, parameterised by the external command
executor: build `add` plus the path resolved from `idx` (nothing is
pushed when the index resolves to no entry), invoke it with the result
discarded, then refresh unconditionally.  Returns the resulting
`SvnStatusList` and the argument vectors of the commands invoked. -/
def add_to_svn (exec : List String → Except String String)
    (st : SvnStatusList) (idx : Nat) :
    SvnStatusList × List (List String) :=
  let args := "add" :: (match st.entries[idx]? with
    | some entry => [entry.file]
    | none => [])
  let st' := refresh_svn_status (exec ["status"]) st
  (st', [args, ["status"]])

/-- `ratatui::layout::Rect` with `u16` fields as `Nat`. -/
structure Rect where
  x : Nat
  y : Nat
  width : Nat
  height : Nat
deriving DecidableEq, Repr

/-- Lines 191–194 of `src/renders.rs` (`centered_rect`): the effective
percentages `percent_x.max((40 * 100 / r.width).min(100))` and
`percent_y.max((8 * 100 / r.height).min(100))`.  Rust `u16` division by
zero panics, modelled by `none`; the divisions otherwise stay far below
`2^16`, so `Nat` arithmetic is exact. -/
def centered_rect_percents (percent_x percent_y : Nat) (r : Rect) :
    Option (Nat × Nat) :=
  if r.width = 0 then none
  else if r.height = 0 then none
  else some (max percent_x (min (40 * 100 / r.width) 100),
             max percent_y (min (8 * 100 / r.height) 100))

/-! ## Lemmas about the line parser -/

theorem splitn2_append (p : Char → Bool) (tok rest : List Char) (c : Char)
    (htok : ∀ ch ∈ tok, p ch = false) (hc : p c = true) :
    splitn2 p (tok ++ c :: rest) = some (tok, rest) := by
  induction tok with
  | nil => simp [splitn2, hc]
  | cons a as ih =>
    have ha : p a = false := htok a (by simp)
    have ih' := ih (fun ch hch => htok ch (by simp [hch]))
    simp [splitn2, ha, ih']

theorem splitn2_none (p : Char → Bool) (l : List Char)
    (h : ∀ ch ∈ l, p ch = false) : splitn2 p l = none := by
  induction l with
  | nil => rfl
  | cons a as ih =>
    have ha : p a = false := h a (by simp)
    have ih' := ih (fun ch hch => h ch (by simp [hch]))
    simp [splitn2, ha, ih']

/-- Claim C5: a status line made of a state token (no separator
characters), one separator character, and a remainder parses to the entry
whose state is the token and whose path is the remainder with surrounding
whitespace trimmed; a line containing no separator yields no entry. -/
theorem parse_status_line_spec (tok rest line : List Char) (c : Char)
    (htok : ∀ ch ∈ tok, statusSep ch = false) (hc : statusSep c = true)
    (hline : ∀ ch ∈ line, statusSep ch = false) :
    parse_status_line (tok ++ c :: rest) =
      some ⟨String.mk (rustTrim rest), String.mk tok⟩ ∧
    parse_status_line line = none := by
  constructor
  · unfold parse_status_line
    rw [splitn2_append statusSep tok rest c htok hc]
  · unfold parse_status_line
    rw [splitn2_none statusSep line hline]

theorem parse_status_line_spec_witness :
    parse_status_line "M   foo/bar.txt".data = some ⟨"foo/bar.txt", "M"⟩ ∧
    parse_status_line "nowhitespace".data = none := by
  have h := parse_status_line_spec "M".data "  foo/bar.txt".data
    "nowhitespace".data ' ' (by decide) (by decide) (by decide)
  have e1 : "M".data ++ ' ' :: "  foo/bar.txt".data = "M   foo/bar.txt".data := by
    decide
  have e2 : (⟨String.mk (rustTrim "  foo/bar.txt".data), String.mk "M".data⟩ :
      SvnStatusEntry) = ⟨"foo/bar.txt", "M"⟩ := by decide
  exact ⟨by rw [← e1, ← e2]; exact h.1, h.2⟩

/-! ## Frame of the refresh rebuild -/

/-- Claim C8: across every refresh the commit message is carried forward
unchanged, while the entries and the selections are rebuilt wholesale
from the fresh status query. -/
theorem refresh_carries_commit_message (raw : Except String String)
    (st : SvnStatusList) :
    (refresh_svn_status raw st).commit_message = st.commit_message ∧
    (refresh_svn_status raw st).entries = svn_status raw ∧
    (refresh_svn_status raw st).selections =
      selectIndices (selectedFiles st) (svn_status raw) 0 :=
  ⟨rfl, rfl, rfl⟩

/-! ## The layout floor arithmetic -/

/-- Claim C10: the percentage computation of `centered_rect` divides by
the container width and height with no zero guard, so it is well-defined
exactly when the container has positive width and positive height; a
container of width 0 or height 0 divides by zero. -/
theorem centered_rect_percents_total_iff (px py : Nat) (r : Rect) :
    (centered_rect_percents px py r).isSome = true ↔
      1 ≤ r.width ∧ 1 ≤ r.height := by
  rcases r with ⟨x, y, w, h⟩
  simp only [centered_rect_percents]
  by_cases hw : w = 0
  · simp [hw]
  · by_cases hh : h = 0
    · simp [hw, hh]
    · simp [hw, hh]
      omega

/-! ## Commit preconditions -/

/-- Claim C3: `push_basic_commit` fails with the empty-message error
whenever the trimmed message is empty, regardless of selections; with a
nonempty trimmed message and no selections it fails with the
no-files-selected error; in both failure cases the status list is
unchanged and no command is invoked; when both preconditions hold the
commit command (followed by the refresh status query) is invoked. -/
theorem push_basic_commit_preconditions
    (exec : List String → Except String String) (st : SvnStatusList) :
    (rustTrim st.commit_message.data = [] →
      push_basic_commit exec st = (.error emptyMessageError, st, [])) ∧
    (rustTrim st.commit_message.data ≠ [] → st.selections = [] →
      push_basic_commit exec st = (.error noFilesSelectedError, st, [])) ∧
    (rustTrim st.commit_message.data ≠ [] → st.selections ≠ [] →
      (push_basic_commit exec st).2.2 =
        [("commit" :: "-m" :: st.commit_message :: selectedFiles st),
         ["status"]]) := by
  refine ⟨fun h1 => ?_, fun h1 h2 => ?_, fun h1 h2 => ?_⟩
  · simp [push_basic_commit, h1]
  · simp [push_basic_commit, h1, h2]
  · have h2' : st.selections.isEmpty = false := by
      cases hs : st.selections with
      | nil => exact absurd hs h2
      | cons a l => rfl
    unfold push_basic_commit
    rw [if_neg h1, if_neg (by simp [h2'])]
    cases hE : exec ("commit" :: "-m" :: st.commit_message :: selectedFiles st) <;>
      simp [hE]

theorem push_basic_commit_preconditions_witness :
    push_basic_commit (fun _ => .ok "") ⟨[⟨"a", "M"⟩], [0], " "⟩ =
      (.error emptyMessageError, ⟨[⟨"a", "M"⟩], [0], " "⟩, []) :=
  (push_basic_commit_preconditions (fun _ => .ok "")
    ⟨[⟨"a", "M"⟩], [0], " "⟩).1 (by decide)

/-! ## The add action -/

/-- Claim C9 (amended): `add_to_svn` always invokes an add command — with
exactly the single resolved path when the index resolves to an entry, and
with no path argument at all when it does not — and in every case (even
when the command executor fails) it refreshes afterwards from a `status`
query. -/
theorem add_to_svn_invocation (exec : List String → Except String String)
    (st : SvnStatusList) (idx : Nat) :
    (st.entries[idx]? = none →
      (add_to_svn exec st idx).2 = [["add"], ["status"]]) ∧
    (∀ e, st.entries[idx]? = some e →
      (add_to_svn exec st idx).2 = [["add", e.file], ["status"]]) ∧
    (add_to_svn exec st idx).1 = refresh_svn_status (exec ["status"]) st := by
  refine ⟨fun h => ?_, fun e h => ?_, rfl⟩
  · simp [add_to_svn, h]
  · simp [add_to_svn, h]

theorem add_to_svn_invocation_witness :
    (add_to_svn (fun _ => .error "fail") ⟨[⟨"a", "M"⟩], [], ""⟩ 0).2 =
      [["add", "a"], ["status"]] :=
  (add_to_svn_invocation (fun _ => .error "fail")
    ⟨[⟨"a", "M"⟩], [], ""⟩ 0).2.1 ⟨"a", "M"⟩ (by decide)

/-- Claim C9, counterexample: with no entries at all, index 0 resolves to
no entry, yet an add command (with an empty argument list) is still
issued before the refresh — the code is not a no-op with respect to the
add command on an absent index. -/
theorem add_command_issued_for_absent_index :
    (⟨[], [], ""⟩ : SvnStatusList).entries[0]? = none ∧
    (add_to_svn (fun _ => .error "fail") ⟨[], [], ""⟩ 0).2 =
      [["add"], ["status"]] := by
  exact ⟨rfl, rfl⟩

/-! ## Toggling a selection by visual ordinal -/

/-- Claim C2: evaluation of `toggle_selection_by_file` at a concrete
state whose selection-set iteration order `[1, 0]` differs from path
order.  With entries `a, b` (indices 0, 1) both selected, ordinal 0 makes
the code remove the selection of `b` (the first selected entry in
iteration order), leaving `{0}`; yet among the selected entries ordered
by file path the entry at position 0 is `a` at index 0, so the claimed
behaviour would leave `{1}`. -/
theorem toggle_selection_by_file_uses_iteration_order :
    (toggle_selection_by_file
        ⟨[⟨"a", "M"⟩, ⟨"b", "M"⟩], [1, 0], ""⟩ 0).selections = [0] ∧
    (sortByFile (([1, 0] : List Nat).filterMap
        (fun i => ([⟨"a", "M"⟩, ⟨"b", "M"⟩] :
          List SvnStatusEntry)[i]?)))[0]? = some ⟨"a", "M"⟩ := by
  exact ⟨by decide, by decide⟩

/-! ## Selection reconciliation across refresh -/

theorem mem_selectedFiles {st : SvnStatusList} {p : String} :
    p ∈ selectedFiles st ↔
      ∃ i ∈ st.selections, ∃ e, st.entries[i]? = some e ∧ e.file = p := by
  simp [selectedFiles, List.mem_filterMap, Option.map_eq_some']

theorem mem_selectIndices {prev : List String} {es : List SvnStatusEntry}
    {k j : Nat} :
    j ∈ selectIndices prev es k ↔
      ∃ d e, es[d]? = some e ∧ e.file ∈ prev ∧ j = k + d := by
  induction es generalizing k with
  | nil => simp [selectIndices]
  | cons e es ih =>
    simp only [selectIndices]
    by_cases h : e.file ∈ prev
    · simp only [if_pos h, List.mem_cons, ih]
      constructor
      · rintro (rfl | ⟨d, f, hd, hp, rfl⟩)
        · exact ⟨0, e, by simp, h, by omega⟩
        · exact ⟨d + 1, f, by simpa using hd, hp, by omega⟩
      · rintro ⟨d, f, hd, hp, rfl⟩
        cases d with
        | zero =>
          left
          omega
        | succ d =>
          right
          exact ⟨d, f, by simpa using hd, hp, by omega⟩
    · simp only [if_neg h, ih]
      constructor
      · rintro ⟨d, f, hd, hp, rfl⟩
        exact ⟨d + 1, f, by simpa using hd, hp, by omega⟩
      · rintro ⟨d, f, hd, hp, rfl⟩
        cases d with
        | zero =>
          have : e = f := by simpa using hd
          exact absurd (this ▸ hp) h
        | succ d =>
          exact ⟨d, f, by simpa using hd, hp, by omega⟩

theorem selectedFiles_refresh (raw : Except String String)
    (st : SvnStatusList) (p : String) :
    p ∈ selectedFiles (refresh_svn_status raw st) ↔
      p ∈ selectedFiles st ∧ p ∈ (svn_status raw).map (fun e => e.file) := by
  unfold refresh_svn_status
  constructor
  · intro hp
    rcases mem_selectedFiles.mp hp with ⟨i, hi, e, he, hf⟩
    rcases mem_selectIndices.mp hi with ⟨d, f, hd, hfp, rfl⟩
    have hde : (svn_status raw)[0 + d]? = (svn_status raw)[d]? := by
      rw [Nat.zero_add]
    rw [hde, hd] at he
    have hef : f = e := Option.some.inj he
    subst hef
    constructor
    · exact hf ▸ hfp
    · exact List.mem_map.mpr ⟨f, List.mem_iff_getElem?.mpr ⟨d, hd⟩, hf⟩
  · rintro ⟨hp, hm⟩
    rcases List.mem_map.mp hm with ⟨e, he, hf⟩
    rcases List.mem_iff_getElem?.mp he with ⟨d, hd⟩
    apply mem_selectedFiles.mpr
    refine ⟨d, ?_, e, by simpa using hd, hf⟩
    exact mem_selectIndices.mpr ⟨d, e, hd, by rw [hf]; exact hp, by omega⟩

/-- Claim C1: across every refresh transition — any prior status-list
state and any new raw status output — a file path is selected after the
refresh exactly when it was selected before the refresh and still
appears in the freshly queried entries; so disappeared files are
implicitly deselected and newly appearing files are not auto-selected,
independently of index shuffling. -/
theorem refresh_preserves_selection_by_path (raw : Except String String)
    (st : SvnStatusList) (p : String) :
    p ∈ selectedFiles (refresh_svn_status raw st) ↔
      p ∈ selectedFiles st ∧ p ∈ (svn_status raw).map (fun e => e.file) :=
  selectedFiles_refresh raw st p

theorem selectIndices_congr (p1 p2 : List String) :
    ∀ (es : List SvnStatusEntry) (k : Nat),
      (∀ e ∈ es, (e.file ∈ p1 ↔ e.file ∈ p2)) →
      selectIndices p1 es k = selectIndices p2 es k := by
  intro es
  induction es with
  | nil =>
    intro k _
    rfl
  | cons e es ih =>
    intro k h
    have he := h e (by simp)
    have hrest : ∀ f ∈ es, (f.file ∈ p1 ↔ f.file ∈ p2) :=
      fun f hf => h f (by simp [hf])
    by_cases h1 : e.file ∈ p1
    · have h2 := he.mp h1
      simp only [selectIndices, if_pos h1, if_pos h2, ih (k + 1) hrest]
    · have h2 : e.file ∉ p2 := fun hx => h1 (he.mpr hx)
      simp only [selectIndices, if_neg h1, if_neg h2, ih (k + 1) hrest]

/-- Claim C7: refreshing twice in a row against the same raw status
output yields the very status list the first refresh produced — the same
entries, the same selection set, and the same commit message. -/
theorem refresh_idempotent (raw : Except String String)
    (st : SvnStatusList) :
    refresh_svn_status raw (refresh_svn_status raw st) =
      refresh_svn_status raw st := by
  have hsel : selectIndices (selectedFiles (refresh_svn_status raw st))
        (svn_status raw) 0 =
      selectIndices (selectedFiles st) (svn_status raw) 0 := by
    apply selectIndices_congr
    intro e he
    rw [selectedFiles_refresh]
    exact and_iff_left (List.mem_map_of_mem (fun e => e.file) he)
  have h1 : refresh_svn_status raw (refresh_svn_status raw st) =
      ⟨svn_status raw,
        selectIndices (selectedFiles (refresh_svn_status raw st))
          (svn_status raw) 0,
        st.commit_message⟩ := rfl
  rw [h1, hsel]
  rfl

/-! ## The sort invariant of the status query -/

theorem listCharLe_total (a b : List Char) :
    listCharLe a b = true ∨ listCharLe b a = true := by
  induction a generalizing b with
  | nil =>
    left
    rfl
  | cons x xs ih =>
    cases b with
    | nil =>
      right
      rfl
    | cons y ys =>
      rcases lt_trichotomy x y with h | h | h
      · left
        simp [listCharLe, h]
      · subst h
        rcases ih ys with h' | h'
        · left
          simp [listCharLe, h']
        · right
          simp [listCharLe, h']
      · right
        simp [listCharLe, h]

theorem listCharLe_trans {a b c : List Char} (h1 : listCharLe a b = true)
    (h2 : listCharLe b c = true) : listCharLe a c = true := by
  induction a generalizing b c with
  | nil => rfl
  | cons x xs ih =>
    cases b with
    | nil => simp [listCharLe] at h1
    | cons y ys =>
      cases c with
      | nil => simp [listCharLe] at h2
      | cons z zs =>
        rcases lt_trichotomy x y with hxy | hxy | hxy
        · rcases lt_trichotomy y z with hyz | hyz | hyz
          · simp [listCharLe, lt_trans hxy hyz]
          · subst hyz
            simp [listCharLe, hxy]
          · simp [listCharLe, hyz, lt_asymm hyz] at h2
        · subst hxy
          simp only [listCharLe, lt_irrefl, if_false] at h1
          rcases lt_trichotomy x z with hyz | hyz | hyz
          · simp [listCharLe, hyz]
          · subst hyz
            simp only [listCharLe, lt_irrefl, if_false] at h2 ⊢
            exact ih h1 h2
          · simp [listCharLe, hyz, lt_asymm hyz] at h2
        · simp [listCharLe, hxy, lt_asymm hxy] at h1

theorem fileLe_total (a b : String) : fileLe a b = true ∨ fileLe b a = true :=
  listCharLe_total a.data b.data

theorem fileLe_trans {a b c : String} (h1 : fileLe a b = true)
    (h2 : fileLe b c = true) : fileLe a c = true :=
  listCharLe_trans h1 h2

theorem mem_insertByFile {x e : SvnStatusEntry} {l : List SvnStatusEntry} :
    x ∈ insertByFile e l ↔ x = e ∨ x ∈ l := by
  induction l with
  | nil => simp [insertByFile]
  | cons f fs ih =>
    by_cases h : fileLe e.file f.file = true
    · simp [insertByFile, h]
    · simp only [insertByFile, if_neg h, List.mem_cons, ih]
      tauto

theorem sorted_insertByFile {e : SvnStatusEntry} {l : List SvnStatusEntry}
    (hl : l.Pairwise (fun a b => fileLe a.file b.file = true)) :
    (insertByFile e l).Pairwise (fun a b => fileLe a.file b.file = true) := by
  induction l with
  | nil => simp [insertByFile]
  | cons f fs ih =>
    rcases List.pairwise_cons.mp hl with ⟨hf, hfs⟩
    by_cases h : fileLe e.file f.file = true
    · rw [insertByFile, if_pos h]
      refine List.pairwise_cons.mpr ⟨?_, hl⟩
      intro b hb
      rcases List.mem_cons.mp hb with rfl | hb'
      · exact h
      · exact fileLe_trans h (hf b hb')
    · have hfe : fileLe f.file e.file = true := by
        rcases fileLe_total e.file f.file with h' | h'
        · exact absurd h' h
        · exact h'
      rw [insertByFile, if_neg h]
      refine List.pairwise_cons.mpr ⟨?_, ih hfs⟩
      intro b hb
      rcases mem_insertByFile.mp hb with rfl | hb'
      · exact hfe
      · exact hf b hb'

theorem sorted_sortByFile (l : List SvnStatusEntry) :
    (sortByFile l).Pairwise (fun a b => fileLe a.file b.file = true) := by
  induction l with
  | nil => simp [sortByFile]
  | cons e es ih => exact sorted_insertByFile ih

theorem perm_insertByFile (e : SvnStatusEntry) (l : List SvnStatusEntry) :
    List.Perm (insertByFile e l) (e :: l) := by
  induction l with
  | nil => rfl
  | cons f fs ih =>
    by_cases h : fileLe e.file f.file = true
    · rw [insertByFile, if_pos h]
    · rw [insertByFile, if_neg h]
      exact (ih.cons f).trans (List.Perm.swap e f fs)

theorem perm_sortByFile (l : List SvnStatusEntry) :
    List.Perm (sortByFile l) l := by
  induction l with
  | nil => rfl
  | cons e es ih => exact (perm_insertByFile e (sortByFile es)).trans (ih.cons e)

/-- Claim C6 (amended): after `svn_status`, `init_svn_status` and
`refresh_svn_status` the entries are sorted by path; the sort preserves
multiplicities, so the entries have pairwise distinct paths whenever the
parsed lines of the raw output do — but duplicate paths in the raw
output are kept, not collapsed. -/
theorem status_entries_sorted (raw : Except String String)
    (st : SvnStatusList) :
    (svn_status raw).Pairwise (fun a b => fileLe a.file b.file = true) ∧
    (((parsed_entries raw).map (fun e => e.file)).Nodup →
      ((svn_status raw).map (fun e => e.file)).Nodup) ∧
    (init_svn_status raw).entries = svn_status raw ∧
    (refresh_svn_status raw st).entries = svn_status raw := by
  refine ⟨sorted_sortByFile _, fun h => ?_, rfl, rfl⟩
  have hp : List.Perm ((parsed_entries raw).map (fun e => e.file))
      ((svn_status raw).map (fun e => e.file)) :=
    ((perm_sortByFile (parsed_entries raw)).map (fun e => e.file)).symm
  exact hp.nodup h

theorem status_entries_sorted_witness :
    ((svn_status (.ok "M b\nM a")).map (fun e => e.file)).Nodup :=
  (status_entries_sorted (.ok "M b\nM a") ⟨[], [], ""⟩).2.1 (by decide)

/-- Claim C6, counterexample: the status query sorts but never
deduplicates, so the raw output `"M a\nM a"` produces two entries with
the same path `a`. -/
theorem svn_status_keeps_duplicate_paths :
    svn_status (.ok "M a\nM a") = [⟨"a", "M"⟩, ⟨"a", "M"⟩] ∧
    ¬ ((svn_status (.ok "M a\nM a")).map (fun e => e.file)).Nodup := by
  exact ⟨by decide, by decide⟩

/-! ## Concrete evaluations of the embedding -/

example : parse_status_line "M   foo/bar.txt".data =
    some ⟨"foo/bar.txt", "M"⟩ := by decide
example : rustLines "M a\r\nA b\n".data = ["M a".data, "A b".data] := by decide
example : svn_status (.ok "M b\nM a\nM a") =
    [⟨"a", "M"⟩, ⟨"a", "M"⟩, ⟨"b", "M"⟩] := by decide
example : toggle_selection_by_file ⟨[⟨"a", "M"⟩, ⟨"b", "M"⟩], [1, 0], ""⟩ 0 =
    ⟨[⟨"a", "M"⟩, ⟨"b", "M"⟩], [0], ""⟩ := by decide
example : refresh_svn_status (.ok "M a\nM c\n? d")
      ⟨[⟨"a", "M"⟩, ⟨"b", "M"⟩, ⟨"c", "M"⟩], [1, 2], "msg"⟩ =
    ⟨[⟨"a", "M"⟩, ⟨"c", "M"⟩, ⟨"d", "?"⟩], [1], "msg"⟩ := by decide
example : push_basic_commit (fun _ => .ok "") ⟨[⟨"a", "M"⟩], [0], "fix"⟩ =
    (.ok true, ⟨[], [], "fix"⟩, [["commit", "-m", "fix", "a"], ["status"]]) := by
  rfl
example : add_to_svn (fun _ => .error "boom") ⟨[], [], ""⟩ 0 =
    (⟨[], [], ""⟩, [["add"], ["status"]]) := by decide
example : centered_rect_percents 10 10 ⟨0, 0, 50, 6⟩ = some (80, 100) := by
  decide
example : centered_rect_percents 10 10 ⟨0, 0, 0, 6⟩ = none := by decide
